import Mathlib

/-!
Verification of the ecflux windowed Reynolds-decomposition engine.

The embedding models the pandas-based source: a data table is a datetime
index (epoch seconds, as naturals) together with named numeric columns whose
cells are `Option ℚ` (`none` models a missing value / NaN).  Time-bucket
grouping follows `pd.Grouper(freq)`: epoch-aligned half-open buckets of a
fixed length, every bucket from the first to the last populated one.
Fixed-count windowing follows the explicit slicing loop of `tke`.
-/

namespace Ecflux

/-- A table cell: `none` models a missing value (NaN). -/
abbrev Val := Option ℚ

/-- In-memory time-series table: a datetime index plus named numeric
columns, mirroring the pandas DataFrame the library operates on. -/
structure Frame where
  times : List ℕ
  cols : List (String × List Val)
deriving DecidableEq

/-- Column membership test, as in `col in df.columns`. -/
def Frame.hasCol (df : Frame) (c : String) : Bool :=
  df.cols.any (fun p => p.1 == c)

/-- Column lookup by name, as in `df[col]`; absent columns give the empty
column (no claim exercises lookup of an absent column in a reducer). -/
def Frame.col (df : Frame) (c : String) : List Val :=
  ((df.cols.find? (fun p => p.1 == c)).map Prod.snd).getD []

/-- Well-formedness of a table: every column has one cell per index entry. -/
def Frame.WF (df : Frame) : Prop :=
  ∀ p ∈ df.cols, p.2.length = df.times.length

/-- Arithmetic mean of a list of rationals (sum divided by length). -/
def listMean (xs : List ℚ) : ℚ := xs.sum / (xs.length : ℚ)

/-- pandas Series.mean: skips missing values; NaN when nothing remains. -/
def pandasMean (xs : List Val) : Val :=
  if (xs.filterMap id).isEmpty then none
  else some (listMean (xs.filterMap id))

/-- Minimum of a list of naturals (0 for the empty list, never used there). -/
def listMinD : List ℕ → ℕ
  | [] => 0
  | [x] => x
  | x :: y :: r => min x (listMinD (y :: r))

/-- Maximum of a list of naturals (0 for the empty list, never used there). -/
def listMaxD : List ℕ → ℕ
  | [] => 0
  | [x] => x
  | x :: y :: r => max x (listMaxD (y :: r))

/-- Epoch-aligned bucket start of a timestamp for bucket length `freq`. -/
def bucketOf (freq t : ℕ) : ℕ := t / freq * freq

/-- The regular bucket keys generated by `pd.Grouper(freq)` over an index:
every multiple of `freq` from the bucket of the earliest time to the bucket
of the latest time, in ascending order. -/
def bucketKeys (freq : ℕ) (ts : List ℕ) : List ℕ :=
  if ts.isEmpty then []
  else
    (List.range ((bucketOf freq (listMaxD ts) - bucketOf freq (listMinD ts)) / freq + 1)).map
      (fun i => bucketOf freq (listMinD ts) + i * freq)

/-- Rows of `df[[a, b]].dropna()` paired with the index: the surviving
(timestamp, a-value, b-value) triples, in table order. -/
def cleanRows2 (df : Frame) (a b : String) : List (ℕ × ℚ × ℚ) :=
  (df.times.zip ((df.col a).zip (df.col b))).filterMap
    (fun r => r.2.1.bind (fun x => r.2.2.map (fun y => (r.1, x, y))))

/-- Rows of `df[[a, b, c]].dropna()` paired with the index. -/
def cleanRows3 (df : Frame) (a b c : String) : List (ℕ × ℚ × ℚ × ℚ) :=
  (df.times.zip ((df.col a).zip ((df.col b).zip (df.col c)))).filterMap
    (fun r => r.2.1.bind (fun x => r.2.2.1.bind (fun y =>
      r.2.2.2.map (fun z => (r.1, x, y, z)))))

/-- compute_window_covariance from covariance.py, on the two column value
lists of one bucket: mean of the product of the two fluctuation series.
An empty bucket yields NaN (np.mean of an empty array). -/
def compute_window_covariance (ws cs : List ℚ) : Val :=
  if ws.isEmpty then none
  else some (listMean (List.zipWith (· * ·)
    (ws.map (fun x => x - listMean ws)) (cs.map (fun x => x - listMean cs))))

/-- Result series: a name plus per-bucket optional values, as a pandas
Series of floats with NaN holes. -/
structure SeriesQ where
  name : String
  entries : List (ℕ × Val)
deriving DecidableEq

/-- The bucket group of rows falling in bucket `b`, as produced by the
groupby over the dropna-ed two-column selection. -/
def covGroup (rows : List (ℕ × ℚ × ℚ)) (freq b : ℕ) : List (ℕ × ℚ × ℚ) :=
  rows.filter (fun r => bucketOf freq r.1 == b)

/-- Value of one output bucket of covariance_flux: the window covariance of
the group, scaled by scale_factor (NaN propagates through the scaling). -/
def covBucketVal (rows : List (ℕ × ℚ × ℚ)) (freq : ℕ) (sf : ℚ) (b : ℕ) : Val :=
  (compute_window_covariance ((covGroup rows freq b).map (fun r => r.2.1))
      ((covGroup rows freq b).map (fun r => r.2.2))).map (fun x => x * sf)

/-- covariance_flux from covariance.py: select the two columns, drop rows
with a missing value, group the remainder into time buckets, reduce each
bucket by compute_window_covariance, scale, and name the series. -/
def covariance_flux (df : Frame) (vertical_var scalar_var : String)
    (freq : ℕ) (scale_factor : ℚ) : SeriesQ :=
  let rows := cleanRows2 df vertical_var scalar_var
  { name := scalar_var ++ "_flux"
    entries := (bucketKeys freq (rows.map Prod.fst)).map
      (fun b => (b, covBucketVal rows freq scale_factor b)) }

/-- Population covariance about the window means, as the spec words it:
mean over the window of (w minus mean w) times (c minus mean c). -/
def popCov (ws cs : List ℚ) : ℚ :=
  listMean (List.zipWith (fun w c => (w - listMean ws) * (c - listMean cs)) ws cs)

/-- Four-row single-bucket table of the covariance scenario. -/
def demoFrame : Frame :=
  { times := [0, 1, 2, 3]
    cols := [("w", [some 1, some 2, some 3, some 4]),
             ("T", [some 10, some 11, some 12, some 13])] }

/-- Row of the index with the three wind columns, cells possibly missing. -/
abbrev Row3 := ℕ × Val × Val × Val

/-- The raw table seen by tke: index entries paired with the u, v, w cells. -/
def tkeRows (df : Frame) (u v w : String) : List Row3 :=
  df.times.zip ((df.col u).zip ((df.col v).zip (df.col w)))

/-- Sequence a list of optional cells: none as soon as any cell is missing. -/
def seqOpt : List Val → Option (List ℚ)
  | [] => some []
  | none :: _ => none
  | some x :: r => (seqOpt r).map (fun l => x :: l)

/-- np.var with ddof 1 on a cell list: NaN when a cell is missing or fewer
than two cells are present (0/0), else the Bessel-corrected variance. -/
def npVarOne (xs : List Val) : Val :=
  (seqOpt xs).bind (fun v =>
    if v.length ≤ 1 then none
    else some ((v.map (fun x => (x - listMean v) ^ 2)).sum / ((v.length : ℚ) - 1)))

/-- Fluctuation column: each cell minus the pandas mean of the column;
missing cells stay missing, as in a pandas Series subtraction. -/
def primeVals (xs : List Val) : List Val :=
  xs.map (fun x => x.bind (fun a => (pandasMean xs).map (fun m => a - m)))

/-- TKE of one full window, as computed inside the loop body of tke. -/
def tkeWindowVal (win : List Row3) : Val :=
  (npVarOne (primeVals (win.map (fun r => r.2.1)))).bind (fun a =>
    (npVarOne (primeVals (win.map (fun r => r.2.2.1)))).bind (fun b =>
      (npVarOne (primeVals (win.map (fun r => r.2.2.2)))).map (fun c =>
        (1/2 : ℚ) * (a + b + c))))

/-- The fixed-count windowing loop of tke: slice non-overlapping windows of
k rows, drop the trailing short window, and emit per full window the TKE
value together with the timestamp at offset k / 2 inside the window. -/
def tkeGo (k : ℕ) (rows : List Row3) : List Val × List ℕ :=
  if h : 0 < k ∧ k ≤ rows.length then
    (tkeWindowVal (rows.take k) :: (tkeGo k (rows.drop k)).1,
      ((rows.take k).map Prod.fst).getD (k / 2) 0 :: (tkeGo k (rows.drop k)).2)
  else ([], [])
termination_by rows.length
decreasing_by all_goals (simp only [List.length_drop]; omega)

/-- tke from flux.py and tke.py: fixed-count windows over the raw table,
returning the parallel lists of TKE values and midpoint timestamps. -/
def tke (df : Frame) (window_size : ℕ) (u v w : String) : List Val × List ℕ :=
  tkeGo window_size (tkeRows df u v w)

/-- Bessel-corrected sample variance, divisor n - 1, as worded by the spec. -/
def sampleVar (v : List ℚ) : ℚ :=
  (v.map (fun x => (x - listMean v) ^ 2)).sum / ((v.length : ℚ) - 1)

/-- Five-row wind table used by the fixed-count windowing scenarios; the
first four u cells are constant. -/
def tkeDemo : Frame :=
  { times := [0, 1, 2, 3, 4]
    cols := [("u", [some 1, some 1, some 1, some 1, some 2]),
             ("v", [some 1, some 3, some 2, some 4, some 0]),
             ("w", [some 2, some 0, some 1, some 5, some 3])] }

/-- Two-sample table whose rows are 1200 seconds apart, so that with a
600-second bucket length the middle bucket holds no rows at all. -/
def gapFrame : Frame :=
  { times := [0, 1200]
    cols := [("w", [some 1, some 2]), ("T", [some 3, some 4]),
             ("u", [some 1, some 2]), ("v", [some 0, some 1])] }

/-- The bucket group of three-column rows falling in bucket b. -/
def covGroup3 (rows : List (ℕ × ℚ × ℚ × ℚ)) (freq b : ℕ) :
    List (ℕ × ℚ × ℚ × ℚ) :=
  rows.filter (fun r => bucketOf freq r.1 == b)

/-- compute_tau_window from momentum.py on the three column value lists of
one bucket: fluctuations of u, v, w about the bucket means, the two mean
fluctuation products, and tau = rho times the root of the sum of their
squares; an empty bucket yields NaN. -/
noncomputable def compute_tau_window (rho : ℚ) (us vs ws : List ℚ) :
    Option ℝ :=
  if us.isEmpty then none
  else
    some ((rho : ℝ) * Real.sqrt
      (((listMean (List.zipWith (· * ·) (us.map (fun x => x - listMean us))
          (ws.map (fun x => x - listMean ws))) : ℚ) : ℝ) ^ 2 +
       ((listMean (List.zipWith (· * ·) (vs.map (fun x => x - listMean vs))
          (ws.map (fun x => x - listMean ws))) : ℚ) : ℝ) ^ 2))

/-- Result series over the reals, for flux values that involve a root. -/
structure SeriesR where
  name : String
  entries : List (ℕ × Option ℝ)

/-- momentum_flux from momentum.py (and, identically, the internal momentum
helper of flux.py): select u, v, w, drop rows with any missing value, and
reduce each time bucket by compute_tau_window. -/
noncomputable def momentum_flux (df : Frame) (freq : ℕ)
    (u_col v_col w_col : String) (rho : ℚ) : SeriesR :=
  { name := "tau_N_per_m2"
    entries :=
      (bucketKeys freq ((cleanRows3 df u_col v_col w_col).map Prod.fst)).map
        (fun b =>
          (b, compute_tau_window rho
            ((covGroup3 (cleanRows3 df u_col v_col w_col) freq b).map
              (fun r => r.2.1))
            ((covGroup3 (cleanRows3 df u_col v_col w_col) freq b).map
              (fun r => r.2.2.1))
            ((covGroup3 (cleanRows3 df u_col v_col w_col) freq b).map
              (fun r => r.2.2.2)))) }

/-- Three-row wind table of the momentum scenario: one row is dropped for a
missing u cell, leaving centered u and w and a constant v in one bucket. -/
def tauFrame : Frame :=
  { times := [0, 1, 2]
    cols := [("u", [some 1, some (-1), none]),
             ("v", [some 0, some 0, some 5]),
             ("w", [some 1, some (-1), some 7])] }

/-- The error kinds of the library: the three eager caller-input failures. -/
inductive EcError where
  | unknownColumn : String → EcError
  | missingArgument : String → EcError
  | unsupportedFluxType : String → EcError
deriving DecidableEq

/-- Loop of fluctuations from eddy.py: one fluctuation column per requested
column, in request order, failing on an absent name. -/
def fluctCols (df : Frame) : List String →
    Except EcError (List (String × List Val))
  | [] => .ok []
  | c :: rest =>
    if df.hasCol c then
      (fluctCols df rest).map
        (fun l => (c ++ "_prime", primeVals (df.col c)) :: l)
    else .error (.unknownColumn c)

/-- fluctuations from eddy.py: a frame of fluctuation columns on the same
index; when no list is given every column is used (all columns of the model
are numeric). -/
def fluctuations (df : Frame) (columns : Option (List String)) :
    Except EcError Frame :=
  (fluctCols df (columns.getD (df.cols.map Prod.fst))).map
    (fun l => { times := df.times, cols := l })

/-- sensible_heat_flux from heat.py, the legacy wrapper: covariance_flux
with scale factor rho * cp, keeping the covariance series name. -/
def sensible_heat_flux (df : Frame) (freq : ℕ) (var_col wind_col : String)
    (rho cp : ℚ) : SeriesQ :=
  covariance_flux df wind_col var_col freq (rho * cp)

/-- The internal sensible heat helper of flux.py: the same covariance call,
renamed to the unit-bearing name. -/
def sensible_heat_flux_internal (df : Frame) (freq : ℕ)
    (var_col wind_col : String) (rho cp : ℚ) : SeriesQ :=
  { covariance_flux df wind_col var_col freq (rho * cp) with
      name := "H_W_per_m2" }

/-- The internal latent heat helper of flux.py: covariance with scale
factor rho * Lv, renamed to the unit-bearing name. -/
def latent_heat_flux_internal (df : Frame) (freq : ℕ)
    (var_col wind_col : String) (rho Lv : ℚ) : SeriesQ :=
  { covariance_flux df wind_col var_col freq (rho * Lv) with
      name := "LE_W_per_m2" }

/-- Injection of a rational series into the real-valued series type. -/
noncomputable def seriesQtoR (s : SeriesQ) : SeriesR :=
  { name := s.name
    entries := s.entries.map (fun p => (p.1, p.2.map (fun q => (q : ℝ)))) }

/-- Python str.upper on the ASCII flux selectors, character by character. -/
def strUpper (s : String) : String := String.mk (s.data.map Char.toUpper)

/-- ecflux from flux.py: upper-case the selector, validate the arguments,
and route to the matching reducer without further computation; the heat
results are injected into the real-valued series type. -/
noncomputable def ecflux (raw_df : Frame) (w : String) (scalar : Option String)
    (flux : String) (freq : ℕ) (rho cp Lv : ℚ) (u v : String) :
    Except EcError SeriesR :=
  if strUpper flux = "H" then
    match scalar with
    | none => .error (.missingArgument
        "scalar [temperature] must be specified for sensible heat flux")
    | some s =>
      .ok (seriesQtoR (sensible_heat_flux_internal raw_df freq s w rho cp))
  else if strUpper flux = "L" ∨ strUpper flux = "LE" then
    match scalar with
    | none => .error (.missingArgument
        "scalar [specific humidity] must be specified for latent heat flux")
    | some s =>
      .ok (seriesQtoR (latent_heat_flux_internal raw_df freq s w rho Lv))
  else if strUpper flux = "TAU" then
    .ok (momentum_flux raw_df freq u v w rho)
  else .error (.unsupportedFluxType (strUpper flux))

lemma zipWith_mul_map (f g : ℚ → ℚ) :
    ∀ ws cs : List ℚ, List.zipWith (· * ·) (ws.map f) (cs.map g) =
      List.zipWith (fun w c => f w * g c) ws cs := by
  intro ws
  induction ws with
  | nil => intro cs; simp
  | cons a as ih => intro cs; cases cs <;> simp [ih]

lemma compute_window_covariance_eq (ws cs : List ℚ) :
    compute_window_covariance ws cs =
      if ws.isEmpty then none else some (popCov ws cs) := by
  unfold compute_window_covariance popCov
  rw [zipWith_mul_map]

lemma zipWith_swap_mul (p q : ℚ) : ∀ ws cs : List ℚ,
    List.zipWith (fun w c => (w - p) * (c - q)) ws cs =
    List.zipWith (fun c w => (c - q) * (w - p)) cs ws := by
  intro ws
  induction ws with
  | nil => intro cs; cases cs <;> simp
  | cons a as ih => intro cs; cases cs <;> simp [ih, mul_comm]

lemma popCov_comm (ws cs : List ℚ) : popCov cs ws = popCov ws cs := by
  unfold popCov
  rw [zipWith_swap_mul]

lemma compute_window_covariance_comm (ws cs : List ℚ)
    (h : ws.length = cs.length) :
    compute_window_covariance cs ws = compute_window_covariance ws cs := by
  rw [compute_window_covariance_eq, compute_window_covariance_eq, popCov_comm]
  rcases ws with _ | ⟨a, ws⟩ <;> rcases cs with _ | ⟨b, cs⟩ <;> simp at h ⊢

lemma covariance_flux_name (df : Frame) (wv sv : String) (freq : ℕ) (sf : ℚ) :
    (covariance_flux df wv sv freq sf).name = sv ++ "_flux" := rfl

lemma covariance_flux_entries (df : Frame) (wv sv : String) (freq : ℕ) (sf : ℚ) :
    (covariance_flux df wv sv freq sf).entries =
      (bucketKeys freq ((cleanRows2 df wv sv).map Prod.fst)).map
        (fun b => (b, covBucketVal (cleanRows2 df wv sv) freq sf b)) := rfl

lemma covariance_flux_mem_entries (df : Frame) (wv sv : String) (freq : ℕ)
    (sf : ℚ) (b : ℕ) (v : Val) :
    (b, v) ∈ (covariance_flux df wv sv freq sf).entries ↔
      b ∈ bucketKeys freq ((cleanRows2 df wv sv).map Prod.fst) ∧
        v = covBucketVal (cleanRows2 df wv sv) freq sf b := by
  rw [covariance_flux_entries]
  constructor
  · intro h
    obtain ⟨a, ha, heq⟩ := List.mem_map.mp h
    obtain ⟨h1, h2⟩ := Prod.mk.injEq .. ▸ heq
    exact ⟨h1 ▸ ha, h2.symm.trans (by rw [h1])⟩
  · rintro ⟨hb, rfl⟩
    exact List.mem_map.mpr ⟨b, hb, rfl⟩

lemma listMinD_le {ts : List ℕ} {t : ℕ} (h : t ∈ ts) : listMinD ts ≤ t := by
  induction ts with
  | nil => simp at h
  | cons a r ih =>
    cases r with
    | nil => simp at h; simp [listMinD, h]
    | cons b s =>
      rcases List.mem_cons.mp h with rfl | h2
      · exact min_le_left _ _
      · exact le_trans (min_le_right _ _) (ih h2)

lemma le_listMaxD {ts : List ℕ} {t : ℕ} (h : t ∈ ts) : t ≤ listMaxD ts := by
  induction ts with
  | nil => simp at h
  | cons a r ih =>
    cases r with
    | nil => simp at h; simp [listMaxD, h]
    | cons b s =>
      rcases List.mem_cons.mp h with rfl | h2
      · exact le_max_left _ _
      · exact le_trans (ih h2) (le_max_right _ _)

lemma listMinD_le_listMaxD {ts : List ℕ} (h : ts ≠ []) :
    listMinD ts ≤ listMaxD ts := by
  cases ts with
  | nil => exact absurd rfl h
  | cons a r =>
    exact le_trans (listMinD_le (List.mem_cons_self a r))
      (le_listMaxD (List.mem_cons_self a r))

lemma bucketOf_mono (freq : ℕ) {s t : ℕ} (h : s ≤ t) :
    bucketOf freq s ≤ bucketOf freq t :=
  Nat.mul_le_mul_right _ (Nat.div_le_div_right h)

lemma bucketOf_dvd (freq t : ℕ) : freq ∣ bucketOf freq t :=
  dvd_mul_left freq (t / freq)

lemma mem_bucketKeys_iff (freq : ℕ) (ts : List ℕ) (b : ℕ) :
    b ∈ bucketKeys freq ts ↔
      ts ≠ [] ∧ freq ∣ b ∧ bucketOf freq (listMinD ts) ≤ b ∧
        b ≤ bucketOf freq (listMaxD ts) := by
  unfold bucketKeys
  rcases ts with _ | ⟨a, r⟩
  · simp
  · have hne : (a :: r) ≠ [] := by simp
    have hlohi : bucketOf freq (listMinD (a :: r)) ≤ bucketOf freq (listMaxD (a :: r)) :=
      bucketOf_mono freq (listMinD_le_listMaxD hne)
    set lo := bucketOf freq (listMinD (a :: r)) with hlo
    set hi := bucketOf freq (listMaxD (a :: r)) with hhi
    have hdlo : freq ∣ lo := bucketOf_dvd freq _
    have hdhi : freq ∣ hi := bucketOf_dvd freq _
    simp only [List.isEmpty_cons, List.mem_map, List.mem_range, hne, ne_eq,
      not_false_eq_true, true_and, Bool.false_eq_true, if_false]
    constructor
    · rintro ⟨i, hi2, rfl⟩
      refine ⟨Dvd.dvd.add hdlo (dvd_mul_left freq i), Nat.le_add_right _ _, ?_⟩
      have h1 : i * freq ≤ (hi - lo) / freq * freq :=
        Nat.mul_le_mul_right _ (Nat.lt_succ_iff.mp hi2)
      have h2 : (hi - lo) / freq * freq ≤ hi - lo := Nat.div_mul_le_self _ _
      omega
    · rintro ⟨hdvd, h1, h2⟩
      refine ⟨(b - lo) / freq, ?_, ?_⟩
      · have : b - lo ≤ hi - lo := by omega
        exact Nat.lt_succ_of_le (Nat.div_le_div_right this)
      · have hdd : freq ∣ b - lo := Nat.dvd_sub' hdvd hdlo
        have : (b - lo) / freq * freq = b - lo := Nat.div_mul_cancel hdd
        omega

lemma bucketOf_mem_bucketKeys {freq : ℕ} {ts : List ℕ} {t : ℕ}
    (h : t ∈ ts) : bucketOf freq t ∈ bucketKeys freq ts := by
  rw [mem_bucketKeys_iff]
  exact ⟨List.ne_nil_of_mem h, bucketOf_dvd freq t,
    bucketOf_mono freq (listMinD_le h), bucketOf_mono freq (le_listMaxD h)⟩

lemma map_isEmpty_eq {α β : Type} (f : α → β) (l : List α) :
    (l.map f).isEmpty = l.isEmpty := by
  cases l <;> rfl

lemma cleanRows2_swap (df : Frame) (a b : String) :
    cleanRows2 df b a = (cleanRows2 df a b).map (fun r => (r.1, r.2.2, r.2.1)) := by
  unfold cleanRows2
  generalize df.times = ts
  generalize df.col a = xs
  generalize df.col b = ys
  induction ts generalizing xs ys with
  | nil => simp
  | cons t ts ih =>
    cases xs with
    | nil => cases ys <;> simp
    | cons x xs =>
      cases ys with
      | nil => simp
      | cons y ys => cases x <;> cases y <;> simp [List.zip_cons_cons, ih xs ys]

lemma covGroup_map_swap (R : List (ℕ × ℚ × ℚ)) (freq b : ℕ) :
    covGroup (R.map (fun r => (r.1, r.2.2, r.2.1))) freq b =
      (covGroup R freq b).map (fun r => (r.1, r.2.2, r.2.1)) := by
  unfold covGroup
  rw [List.filter_map]
  rfl

lemma covBucketVal_swap (R : List (ℕ × ℚ × ℚ)) (freq b : ℕ) (sf : ℚ) :
    covBucketVal (R.map (fun r => (r.1, r.2.2, r.2.1))) freq sf b =
      covBucketVal R freq sf b := by
  unfold covBucketVal
  rw [covGroup_map_swap, List.map_map, List.map_map]
  have h1 : ((fun r : ℕ × ℚ × ℚ => r.2.1) ∘ fun r : ℕ × ℚ × ℚ => (r.1, r.2.2, r.2.1)) =
      fun r : ℕ × ℚ × ℚ => r.2.2 := rfl
  have h2 : ((fun r : ℕ × ℚ × ℚ => r.2.2) ∘ fun r : ℕ × ℚ × ℚ => (r.1, r.2.2, r.2.1)) =
      fun r : ℕ × ℚ × ℚ => r.2.1 := rfl
  rw [h1, h2, compute_window_covariance_comm]
  simp

/-- Claim C1: covariance_flux drops rows with a missing value, then per time
bucket returns scale_factor times the population covariance about the bucket
means, names the series by suffixing the scalar column, and on the four-row
single-bucket scenario with unit scale factor yields exactly 5/4. -/
theorem claim_C1 (df : Frame) (wv sv : String) (freq : ℕ) (sf : ℚ) :
    (covariance_flux df wv sv freq sf).name = sv ++ "_flux" ∧
    (∀ b v, (b, v) ∈ (covariance_flux df wv sv freq sf).entries →
      v = if (covGroup (cleanRows2 df wv sv) freq b).isEmpty then none
          else some (sf * popCov
            ((covGroup (cleanRows2 df wv sv) freq b).map (fun r => r.2.1))
            ((covGroup (cleanRows2 df wv sv) freq b).map (fun r => r.2.2)))) ∧
    covariance_flux demoFrame "w" "T" 600 1 =
      { name := "T_flux", entries := [(0, some (5/4))] } := by
  refine ⟨rfl, ?_, ?_⟩
  · intro b v hmem
    rw [covariance_flux_mem_entries] at hmem
    rw [hmem.2]
    unfold covBucketVal
    rw [compute_window_covariance_eq, map_isEmpty_eq]
    by_cases hemp : (covGroup (cleanRows2 df wv sv) freq b).isEmpty
    · simp [hemp]
    · simp [hemp, mul_comm]
  · simp +decide [covariance_flux, demoFrame, cleanRows2, Frame.col, bucketKeys,
      covBucketVal, covGroup, compute_window_covariance, bucketOf, listMinD,
      listMaxD, listMean, List.range_succ]
    norm_num

/-- Witness for C1: the scenario bucket value follows from the per-bucket
formula at the concrete input. -/
theorem claim_C1_witness :
    some (5/4 : ℚ) =
      (if (covGroup (cleanRows2 demoFrame "w" "T") 600 0).isEmpty then none
       else some ((1 : ℚ) * popCov
         ((covGroup (cleanRows2 demoFrame "w" "T") 600 0).map (fun r => r.2.1))
         ((covGroup (cleanRows2 demoFrame "w" "T") 600 0).map (fun r => r.2.2)))) :=
  (claim_C1 demoFrame "w" "T" 600 1).2.1 0 (some (5/4))
    (by rw [(claim_C1 demoFrame "w" "T" 600 1).2.2]; simp)

/-- Claim C7: with unit scale factor the covariance reducer is symmetric in
its two column arguments, bucket by bucket. -/
theorem claim_C7 (df : Frame) (a b : String) (freq : ℕ)
    (ha : df.hasCol a = true) (hb : df.hasCol b = true) :
    (covariance_flux df a b freq 1).entries =
      (covariance_flux df b a freq 1).entries := by
  rw [covariance_flux_entries, covariance_flux_entries, cleanRows2_swap df a b,
    List.map_map]
  have h1 : (Prod.fst ∘ fun r : ℕ × ℚ × ℚ => (r.1, r.2.2, r.2.1)) =
      (Prod.fst : ℕ × ℚ × ℚ → ℕ) := rfl
  rw [h1]
  apply List.map_congr_left
  intro x _
  rw [covBucketVal_swap]

/-- Witness for C7: symmetry at the concrete four-row table. -/
theorem claim_C7_witness :
    (covariance_flux demoFrame "w" "T" 600 1).entries =
      (covariance_flux demoFrame "T" "w" 600 1).entries :=
  claim_C7 demoFrame "w" "T" 600 (by decide) (by decide)

/-- Claim C10: a time bucket containing exactly one surviving row yields
exactly zero, not NaN: the single fluctuation about its own mean vanishes. -/
theorem claim_C10 (df : Frame) (wv sv : String) (freq : ℕ) (sf : ℚ)
    (b : ℕ) (r : ℕ × ℚ × ℚ)
    (h : covGroup (cleanRows2 df wv sv) freq b = [r]) :
    (b, some 0) ∈ (covariance_flux df wv sv freq sf).entries := by
  rw [covariance_flux_mem_entries]
  constructor
  · have hr : r ∈ covGroup (cleanRows2 df wv sv) freq b := by rw [h]; simp
    have hr2 := List.mem_filter.mp hr
    have hb : bucketOf freq r.1 = b := by simpa using hr2.2
    rw [← hb]
    exact bucketOf_mem_bucketKeys (List.mem_map_of_mem Prod.fst hr2.1)
  · unfold covBucketVal
    rw [h]
    simp [compute_window_covariance, listMean]

/-- Witness for C10: a one-row bucket of a two-bucket table maps to zero. -/
theorem claim_C10_witness :
    (600, some (0 : ℚ)) ∈
      (covariance_flux
        { times := [0, 1, 600]
          cols := [("w", [some 1, some 2, some 7]),
                   ("T", [some 10, some 11, some 9])] } "w" "T" 600 3).entries :=
  claim_C10 _ "w" "T" 600 3 600 (600, 7, 9) (by decide)

lemma tkeGo_spec (k : ℕ) : ∀ n (rows : List Row3), rows.length ≤ n → 0 < k →
    (tkeGo k rows).1.length = rows.length / k ∧
    (tkeGo k rows).2.length = rows.length / k ∧
    (∀ i, i < rows.length / k →
      (tkeGo k rows).2.getD i 0 = (rows.map Prod.fst).getD (i * k + k / 2) 0) ∧
    (∀ i, i < rows.length / k →
      (tkeGo k rows).1.getD i none = tkeWindowVal ((rows.drop (i * k)).take k)) := by
  intro n
  induction n with
  | zero =>
    intro rows hlen hk
    have h0 : rows.length = 0 := Nat.le_zero.mp hlen
    rw [tkeGo, dif_neg (by omega)]
    simp [h0]
  | succ n ih =>
    intro rows hlen hk
    rw [tkeGo]
    by_cases hcond : 0 < k ∧ k ≤ rows.length
    · rw [dif_pos hcond]
      have hdl : (rows.drop k).length = rows.length - k := List.length_drop k rows
      have hdrop : (rows.drop k).length ≤ n := by omega
      obtain ⟨ih1, ih2, ih3, ih4⟩ := ih (rows.drop k) hdrop hk
      have hdiv : rows.length / k = (rows.drop k).length / k + 1 := by
        rw [hdl, Nat.div_eq_sub_div hk hcond.2]
      refine ⟨by simpa [ih1] using hdiv.symm, by simpa [ih2] using hdiv.symm, ?_, ?_⟩
      · intro i hi
        cases i with
        | zero =>
          rw [List.getD_cons_zero]
          have hk2 : k / 2 < k := Nat.div_lt_self hk one_lt_two
          rw [List.map_take, List.getD_eq_getElem?_getD, List.getD_eq_getElem?_getD,
            List.getElem?_take_of_lt hk2]
          simp
        | succ j =>
          rw [List.getD_cons_succ]
          have hj : j < (rows.drop k).length / k := by omega
          rw [ih3 j hj, List.map_drop, List.getD_eq_getElem?_getD,
            List.getD_eq_getElem?_getD, List.getElem?_drop]
          congr 2
          ring
      · intro i hi
        cases i with
        | zero =>
          rw [List.getD_cons_zero]
          simp
        | succ j =>
          rw [List.getD_cons_succ]
          have hj : j < (rows.drop k).length / k := by omega
          rw [ih4 j hj, List.drop_drop]
          congr 3
          ring
    · rw [dif_neg hcond]
      have h0 : rows.length < k := by omega
      have : rows.length / k = 0 := Nat.div_eq_of_lt h0
      simp [this]

lemma Frame.col_length {df : Frame} {c : String} (hwf : df.WF)
    (hc : df.hasCol c = true) : (df.col c).length = df.times.length := by
  unfold Frame.col
  cases hfind : df.cols.find? (fun p => p.1 == c) with
  | none =>
    exfalso
    obtain ⟨p, hp, hpc⟩ := List.any_eq_true.mp hc
    exact absurd hpc (by simpa using List.find?_eq_none.mp hfind p hp)
  | some p =>
    show p.2.length = df.times.length
    exact hwf p (List.mem_of_find?_eq_some hfind)

lemma tkeRows_length {df : Frame} {u v w : String} (hwf : df.WF)
    (hu : df.hasCol u = true) (hv : df.hasCol v = true)
    (hw : df.hasCol w = true) :
    (tkeRows df u v w).length = df.times.length := by
  unfold tkeRows
  simp [Frame.col_length hwf hu, Frame.col_length hwf hv, Frame.col_length hwf hw]

lemma tkeRows_map_fst {df : Frame} {u v w : String} (hwf : df.WF)
    (hu : df.hasCol u = true) (hv : df.hasCol v = true)
    (hw : df.hasCol w = true) :
    (tkeRows df u v w).map Prod.fst = df.times := by
  unfold tkeRows
  apply List.map_fst_zip
  simp [Frame.col_length hwf hu, Frame.col_length hwf hv, Frame.col_length hwf hw]

/-- Claim C3: tke partitions the table into non-overlapping fixed-count
windows of k rows, drops the trailing short window, returns two lists of
length exactly N / k, and the i-th timestamp is the index value at offset
k / 2 within the i-th window. -/
theorem claim_C3 (df : Frame) (k : ℕ) (u v w : String) (hk : 1 ≤ k)
    (hwf : df.WF) (hu : df.hasCol u = true) (hv : df.hasCol v = true)
    (hw : df.hasCol w = true) :
    (tke df k u v w).1.length = df.times.length / k ∧
    (tke df k u v w).2.length = df.times.length / k ∧
    ∀ i, i < df.times.length / k →
      (tke df k u v w).2.getD i 0 = df.times.getD (i * k + k / 2) 0 := by
  have hlen := tkeRows_length hwf hu hv hw
  have hfst := tkeRows_map_fst hwf hu hv hw
  obtain ⟨h1, h2, h3, _⟩ :=
    tkeGo_spec k (tkeRows df u v w).length (tkeRows df u v w) le_rfl hk
  rw [hlen] at h1 h2 h3
  refine ⟨h1, h2, fun i hi => ?_⟩
  rw [show (tke df k u v w).2 = (tkeGo k (tkeRows df u v w)).2 from rfl,
    h3 i hi, hfst]

/-- Witness for C3: the five-row table with window size two gives two
windows and midpoint timestamps at offsets 1 and 3. -/
theorem claim_C3_witness :
    (tke tkeDemo 2 "u" "v" "w").1.length = tkeDemo.times.length / 2 ∧
    (tke tkeDemo 2 "u" "v" "w").2.length = tkeDemo.times.length / 2 ∧
    ∀ i, i < tkeDemo.times.length / 2 →
      (tke tkeDemo 2 "u" "v" "w").2.getD i 0 = tkeDemo.times.getD (i * 2 + 1) 0 :=
  claim_C3 tkeDemo 2 "u" "v" "w" (by norm_num)
    (by intro p hp; fin_cases hp <;> rfl) (by decide) (by decide) (by decide)

lemma sum_map_sub_const (m : ℚ) :
    ∀ v : List ℚ, (v.map (fun x => x - m)).sum = v.sum - v.length * m := by
  intro v
  induction v with
  | nil => simp
  | cons a r ih => simp [ih]; ring

lemma listMean_map_sub {v : List ℚ} (hv : v ≠ []) (m : ℚ) :
    listMean (v.map (fun x => x - m)) = listMean v - m := by
  have hn : (v.length : ℚ) ≠ 0 :=
    Nat.cast_ne_zero.mpr (List.length_pos.mpr hv).ne'
  unfold listMean
  rw [sum_map_sub_const, List.length_map, sub_div, mul_comm,
    mul_div_assoc, div_self hn, mul_one]

lemma sampleVar_map_sub {v : List ℚ} (hv : v ≠ []) (m : ℚ) :
    sampleVar (v.map (fun x => x - m)) = sampleVar v := by
  unfold sampleVar
  rw [List.length_map, listMean_map_sub hv m, List.map_map]
  congr 2
  apply List.map_congr_left
  intro x hx
  simp only [Function.comp]
  ring

lemma listMean_replicate {k : ℕ} (hk : 0 < k) (a : ℚ) :
    listMean (List.replicate k a) = a := by
  have hn : (k : ℚ) ≠ 0 := Nat.cast_ne_zero.mpr hk.ne'
  unfold listMean
  rw [List.sum_replicate, List.length_replicate, nsmul_eq_mul, mul_comm,
    mul_div_assoc, div_self hn, mul_one]

lemma sampleVar_replicate (k : ℕ) (a : ℚ) :
    sampleVar (List.replicate k a) = 0 := by
  rcases Nat.eq_zero_or_pos k with rfl | hk
  · simp [sampleVar, listMean]
  · unfold sampleVar
    rw [listMean_replicate hk a, List.map_replicate]
    simp

lemma filterMap_id_map_some (v : List ℚ) :
    (v.map some).filterMap id = v := by
  induction v with
  | nil => rfl
  | cons a r ih => simp [ih]

lemma pandasMean_clean {v : List ℚ} (hv : v ≠ []) :
    pandasMean (v.map some) = some (listMean v) := by
  unfold pandasMean
  rw [filterMap_id_map_some]
  simp [hv]

lemma primeVals_clean {v : List ℚ} (hv : v ≠ []) :
    primeVals (v.map some) = (v.map (fun x => x - listMean v)).map some := by
  unfold primeVals
  rw [pandasMean_clean hv, List.map_map, List.map_map]
  rfl

lemma seqOpt_map_some (v : List ℚ) : seqOpt (v.map some) = some v := by
  induction v with
  | nil => rfl
  | cons a r ih => simp [seqOpt, ih]

lemma npVarOne_clean {v : List ℚ} (h2 : 2 ≤ v.length) :
    npVarOne (v.map some) = some (sampleVar v) := by
  unfold npVarOne sampleVar
  rw [seqOpt_map_some, Option.some_bind, if_neg (by omega)]

lemma tkeWindowVal_clean {win : List Row3} {us vs ws : List ℚ}
    (hu : win.map (fun r => r.2.1) = us.map some)
    (hv : win.map (fun r => r.2.2.1) = vs.map some)
    (hw : win.map (fun r => r.2.2.2) = ws.map some)
    (h2u : 2 ≤ us.length) (h2v : 2 ≤ vs.length) (h2w : 2 ≤ ws.length) :
    tkeWindowVal win =
      some ((1/2 : ℚ) * (sampleVar us + sampleVar vs + sampleVar ws)) := by
  have hniu : us ≠ [] := by intro h; rw [h] at h2u; simp at h2u
  have hniv : vs ≠ [] := by intro h; rw [h] at h2v; simp at h2v
  have hniw : ws ≠ [] := by intro h; rw [h] at h2w; simp at h2w
  unfold tkeWindowVal
  rw [hu, hv, hw, primeVals_clean hniu, primeVals_clean hniv,
    primeVals_clean hniw,
    npVarOne_clean (by simpa using h2u), npVarOne_clean (by simpa using h2v),
    npVarOne_clean (by simpa using h2w),
    sampleVar_map_sub hniu, sampleVar_map_sub hniv, sampleVar_map_sub hniw]
  rfl

lemma tkeRows_map_u {df : Frame} {u v w : String} (hwf : df.WF)
    (hu : df.hasCol u = true) (hv : df.hasCol v = true)
    (hw : df.hasCol w = true) :
    (tkeRows df u v w).map (fun r => r.2.1) = df.col u := by
  have e1 := Frame.col_length hwf hu
  have e2 := Frame.col_length hwf hv
  have e3 := Frame.col_length hwf hw
  unfold tkeRows
  rw [show (fun r : Row3 => r.2.1) = (Prod.fst ∘ Prod.snd) from rfl, ← List.map_map]
  rw [List.map_snd_zip _ _ (by simp [e1, e2, e3])]
  exact List.map_fst_zip _ _ (by simp [e1, e2, e3])

lemma tkeRows_map_v {df : Frame} {u v w : String} (hwf : df.WF)
    (hu : df.hasCol u = true) (hv : df.hasCol v = true)
    (hw : df.hasCol w = true) :
    (tkeRows df u v w).map (fun r => r.2.2.1) = df.col v := by
  have e1 := Frame.col_length hwf hu
  have e2 := Frame.col_length hwf hv
  have e3 := Frame.col_length hwf hw
  unfold tkeRows
  rw [show (fun r : Row3 => r.2.2.1) = (Prod.fst ∘ (Prod.snd ∘ Prod.snd)) from rfl,
    ← List.map_map, ← List.map_map]
  rw [List.map_snd_zip _ _ (by simp [e1, e2, e3])]
  rw [List.map_snd_zip _ _ (by simp [e1, e2, e3])]
  exact List.map_fst_zip _ _ (by simp [e1, e2, e3])

lemma tkeRows_map_w {df : Frame} {u v w : String} (hwf : df.WF)
    (hu : df.hasCol u = true) (hv : df.hasCol v = true)
    (hw : df.hasCol w = true) :
    (tkeRows df u v w).map (fun r => r.2.2.2) = df.col w := by
  have e1 := Frame.col_length hwf hu
  have e2 := Frame.col_length hwf hv
  have e3 := Frame.col_length hwf hw
  unfold tkeRows
  rw [show (fun r : Row3 => r.2.2.2) = ((Prod.snd ∘ Prod.snd) ∘ Prod.snd) from rfl,
    ← List.map_map, ← List.map_map]
  rw [List.map_snd_zip _ _ (by simp [e1, e2, e3])]
  rw [List.map_snd_zip _ _ (by simp [e1, e2, e3])]
  exact List.map_snd_zip _ _ (by simp [e1, e2, e3])

/-- Claim C4: per full fixed-count window, tke computes fluctuations about
the window means and returns half the sum of the three Bessel-corrected
sample variances; a constant u window contributes zero. -/
theorem claim_C4 (df : Frame) (k : ℕ) (u v w : String) (i : ℕ)
    (hk : 2 ≤ k) (hwf : df.WF) (hu : df.hasCol u = true)
    (hv : df.hasCol v = true) (hw : df.hasCol w = true)
    (hi : i < df.times.length / k) (us vs ws : List ℚ)
    (hus : ((df.col u).drop (i * k)).take k = us.map some)
    (hvs : ((df.col v).drop (i * k)).take k = vs.map some)
    (hws : ((df.col w).drop (i * k)).take k = ws.map some) :
    (tke df k u v w).1.getD i none =
      some ((1/2 : ℚ) * (sampleVar us + sampleVar vs + sampleVar ws)) ∧
    ∀ a : ℚ, us = List.replicate k a →
      (tke df k u v w).1.getD i none =
        some ((1/2 : ℚ) * (sampleVar vs + sampleVar ws)) := by
  have hRlen := tkeRows_length hwf hu hv hw
  obtain ⟨_, _, _, h4⟩ :=
    tkeGo_spec k (tkeRows df u v w).length (tkeRows df u v w) le_rfl (by omega)
  have hi2 : i < (tkeRows df u v w).length / k := by rw [hRlen]; exact hi
  have hval : (tke df k u v w).1.getD i none
      = tkeWindowVal (((tkeRows df u v w).drop (i * k)).take k) := h4 i hi2
  have hmul : (i + 1) * k = i * k + k := by ring
  have hNk : i * k + k ≤ df.times.length := by
    have h5 : (i + 1) * k ≤ df.times.length :=
      (Nat.le_div_iff_mul_le (by omega : 0 < k)).mp (Nat.succ_le_of_lt hi)
    omega
  have lenu : us.length = k := by
    have h6 : (((df.col u).drop (i * k)).take k).length = k := by
      rw [List.length_take, List.length_drop, Frame.col_length hwf hu]
      omega
    rw [hus, List.length_map] at h6
    exact h6
  have lenv : vs.length = k := by
    have h6 : (((df.col v).drop (i * k)).take k).length = k := by
      rw [List.length_take, List.length_drop, Frame.col_length hwf hv]
      omega
    rw [hvs, List.length_map] at h6
    exact h6
  have lenw : ws.length = k := by
    have h6 : (((df.col w).drop (i * k)).take k).length = k := by
      rw [List.length_take, List.length_drop, Frame.col_length hwf hw]
      omega
    rw [hws, List.length_map] at h6
    exact h6
  have hwinu : (((tkeRows df u v w).drop (i * k)).take k).map (fun r => r.2.1)
      = us.map some := by
    rw [List.map_take, List.map_drop, tkeRows_map_u hwf hu hv hw, hus]
  have hwinv : (((tkeRows df u v w).drop (i * k)).take k).map (fun r => r.2.2.1)
      = vs.map some := by
    rw [List.map_take, List.map_drop, tkeRows_map_v hwf hu hv hw, hvs]
  have hwinw : (((tkeRows df u v w).drop (i * k)).take k).map (fun r => r.2.2.2)
      = ws.map some := by
    rw [List.map_take, List.map_drop, tkeRows_map_w hwf hu hv hw, hws]
  have hmain : (tke df k u v w).1.getD i none =
      some ((1/2 : ℚ) * (sampleVar us + sampleVar vs + sampleVar ws)) := by
    rw [hval, tkeWindowVal_clean hwinu hwinv hwinw (by omega) (by omega) (by omega)]
  refine ⟨hmain, fun a ha => ?_⟩
  rw [hmain, ha, sampleVar_replicate]
  congr 1
  ring

/-- Witness for C4: window zero of the five-row table with window size four
has constant u, so its TKE is half the sum of the v and w variances. -/
theorem claim_C4_witness :
    (tke tkeDemo 4 "u" "v" "w").1.getD 0 none =
      some ((1/2 : ℚ) * (sampleVar [1, 1, 1, 1] + sampleVar [1, 3, 2, 4] +
        sampleVar [2, 0, 1, 5])) ∧
    ∀ a : ℚ, [(1 : ℚ), 1, 1, 1] = List.replicate 4 a →
      (tke tkeDemo 4 "u" "v" "w").1.getD 0 none =
        some ((1/2 : ℚ) * (sampleVar [1, 3, 2, 4] + sampleVar [2, 0, 1, 5])) :=
  claim_C4 tkeDemo 4 "u" "v" "w" 0 (by norm_num)
    (by intro p hp; fin_cases hp <;> rfl) (by decide) (by decide) (by decide)
    (by decide) [1, 1, 1, 1] [1, 3, 2, 4] [2, 0, 1, 5]
    (by decide) (by decide) (by decide)

lemma bucketKeys_chain {freq : ℕ} (hf : 0 < freq) (ts : List ℕ) :
    List.Chain' (· < ·) (bucketKeys freq ts) := by
  unfold bucketKeys
  by_cases h : ts.isEmpty
  · simp [h]
  · simp only [h, Bool.false_eq_true, if_false]
    apply List.Pairwise.chain'
    rw [List.pairwise_map]
    apply (List.pairwise_lt_range _).imp
    intro i j hij
    exact Nat.add_lt_add_left ((Nat.mul_lt_mul_right hf).mpr hij) _

/-- Claim C8: time-bucket mode emits every epoch-aligned bucket within the
span of the surviving rows, in chronological order, with NaN for a bucket
holding no rows, while fixed-count mode never emits the trailing partial
window: output length is exactly N / k. -/
theorem claim_C8 (df : Frame) (wv sv u v w : String) (freq k : ℕ) (sf : ℚ)
    (hf : 0 < freq) (hk : 0 < k) (hwf : df.WF)
    (hu : df.hasCol u = true) (hv : df.hasCol v = true)
    (hw : df.hasCol w = true) :
    (∀ b, freq ∣ b →
      bucketOf freq (listMinD ((cleanRows2 df wv sv).map Prod.fst)) ≤ b →
      b ≤ bucketOf freq (listMaxD ((cleanRows2 df wv sv).map Prod.fst)) →
      cleanRows2 df wv sv ≠ [] →
      ∃ x, (b, x) ∈ (covariance_flux df wv sv freq sf).entries) ∧
    List.Chain' (fun p q : ℕ × Val => p.1 < q.1)
      (covariance_flux df wv sv freq sf).entries ∧
    (∀ b x, (b, x) ∈ (covariance_flux df wv sv freq sf).entries →
      covGroup (cleanRows2 df wv sv) freq b = [] → x = none) ∧
    (tke df k u v w).1.length = df.times.length / k ∧
    (tke df k u v w).2.length = df.times.length / k := by
  refine ⟨?_, ?_, ?_, ?_, ?_⟩
  · intro b hdvd hlo hhi hne
    refine ⟨covBucketVal (cleanRows2 df wv sv) freq sf b, ?_⟩
    rw [covariance_flux_mem_entries]
    refine ⟨?_, rfl⟩
    rw [mem_bucketKeys_iff]
    exact ⟨by simpa using hne, hdvd, hlo, hhi⟩
  · rw [covariance_flux_entries]
    rw [List.chain'_map]
    exact bucketKeys_chain hf _
  · intro b x hmem hempty
    rw [covariance_flux_mem_entries] at hmem
    rw [hmem.2]
    unfold covBucketVal
    rw [hempty]
    rfl
  · obtain ⟨h1, _, _, _⟩ :=
      tkeGo_spec k (tkeRows df u v w).length (tkeRows df u v w) le_rfl hk
    rw [tkeRows_length hwf hu hv hw] at h1
    exact h1
  · obtain ⟨_, h2, _, _⟩ :=
      tkeGo_spec k (tkeRows df u v w).length (tkeRows df u v w) le_rfl hk
    rw [tkeRows_length hwf hu hv hw] at h2
    exact h2

/-- Witness for C8: the empty middle bucket of the gap table appears in the
covariance output, and fixed-count windows over its two rows number one. -/
theorem claim_C8_witness :
    (∃ x, (600, x) ∈ (covariance_flux gapFrame "w" "T" 600 1).entries) ∧
    (tke gapFrame 2 "u" "v" "w").1.length = gapFrame.times.length / 2 := by
  have h := claim_C8 gapFrame "w" "T" "u" "v" "w" 600 2 1 (by norm_num)
    (by norm_num) (by intro p hp; fin_cases hp <;> rfl) (by decide) (by decide)
    (by decide)
  exact ⟨h.1 600 (by decide) (by decide) (by decide) (by decide), h.2.2.2.1⟩

lemma momentum_flux_mem_entries (df : Frame) (freq : ℕ) (uc vc wc : String)
    (rho : ℚ) (b : ℕ) (x : Option ℝ) :
    (b, x) ∈ (momentum_flux df freq uc vc wc rho).entries ↔
      b ∈ bucketKeys freq ((cleanRows3 df uc vc wc).map Prod.fst) ∧
        x = compute_tau_window rho
          ((covGroup3 (cleanRows3 df uc vc wc) freq b).map (fun r => r.2.1))
          ((covGroup3 (cleanRows3 df uc vc wc) freq b).map (fun r => r.2.2.1))
          ((covGroup3 (cleanRows3 df uc vc wc) freq b).map (fun r => r.2.2.2)) := by
  show (b, x) ∈ List.map _ _ ↔ _
  constructor
  · intro h
    obtain ⟨a, ha, heq⟩ := List.mem_map.mp h
    obtain ⟨h1, h2⟩ := Prod.mk.injEq .. ▸ heq
    exact ⟨h1 ▸ ha, h2.symm.trans (by rw [h1])⟩
  · rintro ⟨hb, rfl⟩
    exact List.mem_map.mpr ⟨b, hb, rfl⟩

lemma compute_tau_window_eq (rho : ℚ) (us vs ws : List ℚ) :
    compute_tau_window rho us vs ws =
      if us.isEmpty then none
      else some ((rho : ℝ) * Real.sqrt
        (((popCov us ws : ℚ) : ℝ) ^ 2 + ((popCov vs ws : ℚ) : ℝ) ^ 2)) := by
  unfold compute_tau_window popCov
  rw [zipWith_mul_map, zipWith_mul_map]

/-- Claim C5: momentum_flux drops rows with any of u, v, w missing, reduces
each bucket to rho times the root of the sum of the squares of the two
population covariances with the vertical wind, names the series
tau_N_per_m2, and on the centered scenario yields exactly rho. -/
theorem claim_C5 (df : Frame) (freq : ℕ) (uc vc wc : String) (rho : ℚ) :
    (momentum_flux df freq uc vc wc rho).name = "tau_N_per_m2" ∧
    (∀ b x, (b, x) ∈ (momentum_flux df freq uc vc wc rho).entries →
      x = if (covGroup3 (cleanRows3 df uc vc wc) freq b).isEmpty then none
          else some ((rho : ℝ) * Real.sqrt
            (((popCov
                ((covGroup3 (cleanRows3 df uc vc wc) freq b).map (fun r => r.2.1))
                ((covGroup3 (cleanRows3 df uc vc wc) freq b).map (fun r => r.2.2.2))
                  : ℚ) : ℝ) ^ 2 +
             ((popCov
                ((covGroup3 (cleanRows3 df uc vc wc) freq b).map (fun r => r.2.2.1))
                ((covGroup3 (cleanRows3 df uc vc wc) freq b).map (fun r => r.2.2.2))
                  : ℚ) : ℝ) ^ 2))) ∧
    (momentum_flux tauFrame 600 "u" "v" "w" rho).entries = [(0, some (rho : ℝ))] := by
  refine ⟨rfl, ?_, ?_⟩
  · intro b x hmem
    rw [momentum_flux_mem_entries] at hmem
    rw [hmem.2, compute_tau_window_eq, map_isEmpty_eq]
  · simp +decide [momentum_flux, tauFrame, cleanRows3, Frame.col, bucketKeys,
      covGroup3, compute_tau_window, bucketOf, listMinD, listMaxD, listMean,
      List.range_succ]

/-- Witness for C5: the scenario bucket value follows from the per-bucket
formula at bucket zero of the concrete table with rho = 3. -/
theorem claim_C5_witness :
    some ((3 : ℚ) : ℝ) =
      (if (covGroup3 (cleanRows3 tauFrame "u" "v" "w") 600 0).isEmpty then none
       else some (((3 : ℚ) : ℝ) * Real.sqrt
         (((popCov
             ((covGroup3 (cleanRows3 tauFrame "u" "v" "w") 600 0).map (fun r => r.2.1))
             ((covGroup3 (cleanRows3 tauFrame "u" "v" "w") 600 0).map (fun r => r.2.2.2))
               : ℚ) : ℝ) ^ 2 +
          ((popCov
             ((covGroup3 (cleanRows3 tauFrame "u" "v" "w") 600 0).map (fun r => r.2.2.1))
             ((covGroup3 (cleanRows3 tauFrame "u" "v" "w") 600 0).map (fun r => r.2.2.2))
               : ℚ) : ℝ) ^ 2))) :=
  (claim_C5 tauFrame 600 "u" "v" "w" 3).2.1 0 (some ((3 : ℚ) : ℝ))
    (by rw [(claim_C5 tauFrame 600 "u" "v" "w" 3).2.2]; simp)

lemma fluctCols_spec (df : Frame) : ∀ cols : List String,
    (∀ e, fluctCols df cols = .error e →
      ∃ c, e = .unknownColumn c ∧ c ∈ cols ∧ df.hasCol c = false) ∧
    ((∀ c ∈ cols, df.hasCol c = true) →
      fluctCols df cols =
        .ok (cols.map (fun c => (c ++ "_prime", primeVals (df.col c))))) ∧
    (∀ l, fluctCols df cols = .ok l → ∀ c ∈ cols, df.hasCol c = true) := by
  intro cols
  induction cols with
  | nil =>
    refine ⟨?_, ?_, ?_⟩
    · intro e he; simp [fluctCols] at he
    · intro h; rfl
    · intro l hl c hc; simp at hc
  | cons c rest ih =>
    obtain ⟨ih1, ih2, ih3⟩ := ih
    by_cases hc : df.hasCol c = true
    · refine ⟨?_, ?_, ?_⟩
      · intro e he
        rw [show fluctCols df (c :: rest) =
          (fluctCols df rest).map
            (fun l => (c ++ "_prime", primeVals (df.col c)) :: l)
          from by rw [fluctCols, if_pos hc]] at he
        cases hrest : fluctCols df rest with
        | error e2 =>
          rw [hrest] at he
          have he2 : e2 = e := by simpa [Except.map] using he
          obtain ⟨d, hd1, hd2, hd3⟩ := ih1 e2 hrest
          exact ⟨d, he2 ▸ hd1, List.mem_cons_of_mem c hd2, hd3⟩
        | ok l =>
          rw [hrest] at he
          simp [Except.map] at he
      · intro hall
        rw [fluctCols, if_pos hc,
          ih2 (fun d hd => hall d (List.mem_cons_of_mem c hd))]
        rfl
      · intro l hl d hd
        rcases List.mem_cons.mp hd with rfl | hd2
        · exact hc
        · rw [show fluctCols df (c :: rest) =
            (fluctCols df rest).map
              (fun l => (c ++ "_prime", primeVals (df.col c)) :: l)
            from by rw [fluctCols, if_pos hc]] at hl
          cases hrest : fluctCols df rest with
          | error e2 => rw [hrest] at hl; simp [Except.map] at hl
          | ok l2 => exact ih3 l2 hrest d hd2
    · have hfc : fluctCols df (c :: rest) = .error (.unknownColumn c) := by
        rw [fluctCols, if_neg hc]
      refine ⟨?_, ?_, ?_⟩
      · intro e he
        rw [hfc] at he
        exact ⟨c, by simpa using he.symm, List.mem_cons_self c rest,
          by simpa using hc⟩
      · intro hall
        exact absurd (hall c (List.mem_cons_self c rest)) hc
      · intro l hl
        rw [hfc] at hl
        simp at hl

/-- Claim C6: fluctuations fails with an UnknownColumn error exactly when a
requested name is absent from the table; otherwise it returns one _prime
column per request, in order, holding the input values minus the arithmetic
mean of the column over the window. -/
theorem claim_C6 (df : Frame) (cols : List String) :
    ((∃ c, fluctuations df (some cols) = .error (.unknownColumn c)) ↔
      ∃ c ∈ cols, df.hasCol c = false) ∧
    (∀ out, fluctuations df (some cols) = .ok out →
      out.times = df.times ∧
      out.cols = cols.map (fun c => (c ++ "_prime", primeVals (df.col c)))) ∧
    (∀ v : List ℚ, primeVals (v.map some) =
      v.map (fun x => some (x - listMean v))) := by
  obtain ⟨s1, s2, s3⟩ := fluctCols_spec df cols
  refine ⟨⟨?_, ?_⟩, ?_, ?_⟩
  · rintro ⟨c, hc⟩
    unfold fluctuations at hc
    rw [Option.getD_some] at hc
    cases hrest : fluctCols df cols with
    | error e =>
      obtain ⟨d, hd1, hd2, hd3⟩ := s1 e hrest
      exact ⟨d, hd2, hd3⟩
    | ok l =>
      rw [hrest] at hc
      simp [Except.map] at hc
  · rintro ⟨c, hc1, hc2⟩
    cases hrest : fluctCols df cols with
    | error e =>
      obtain ⟨d, hd1, hd2, hd3⟩ := s1 e hrest
      refine ⟨d, ?_⟩
      unfold fluctuations
      rw [Option.getD_some, hrest, hd1]
      rfl
    | ok l =>
      exact absurd (s3 l hrest c hc1) (by simp [hc2])
  · intro out hout
    unfold fluctuations at hout
    rw [Option.getD_some] at hout
    cases hrest : fluctCols df cols with
    | error e =>
      rw [hrest] at hout
      simp [Except.map] at hout
    | ok l =>
      rw [hrest] at hout
      have hl : Frame.mk df.times l = out := by simpa [Except.map] using hout
      have hall := s3 l hrest
      have hok := s2 hall
      rw [hrest] at hok
      have hlm : l = cols.map (fun c => (c ++ "_prime", primeVals (df.col c))) := by
        simpa using hok
      rw [← hl]
      exact ⟨rfl, by rw [hlm]⟩
  · intro v
    cases v with
    | nil => rfl
    | cons a r =>
      rw [primeVals_clean (by simp), List.map_map]
      rfl

/-- Witness for C6: requesting an absent column fails with UnknownColumn,
and the fluctuation values of a clean column subtract its mean. -/
theorem claim_C6_witness :
    (∃ c, fluctuations tkeDemo (some ["u", "q"]) = .error (.unknownColumn c)) ∧
    primeVals ([(1 : ℚ), 2, 3].map some) =
      [(1 : ℚ), 2, 3].map (fun x => some (x - listMean [(1 : ℚ), 2, 3])) :=
  ⟨(claim_C6 tkeDemo ["u", "q"]).1.mpr ⟨"q", by decide, by decide⟩,
    (claim_C6 tkeDemo ["u", "q"]).2.2 [1, 2, 3]⟩

/-- Claim C2: an unsupported flux selector fails with UnsupportedFluxType
with no dependence on the input table, and a missing scalar for either heat
flux fails with MissingArgument; no flux result is produced in either case. -/
theorem claim_C2 (df df2 : Frame) (w flux : String) (freq : ℕ)
    (rho cp Lv : ℚ) (u v : String) :
    (strUpper flux ≠ "H" → strUpper flux ≠ "L" → strUpper flux ≠ "LE" →
      strUpper flux ≠ "TAU" →
      ∀ scalar, ecflux df w scalar flux freq rho cp Lv u v =
          .error (.unsupportedFluxType (strUpper flux)) ∧
        ecflux df w scalar flux freq rho cp Lv u v =
          ecflux df2 w scalar flux freq rho cp Lv u v) ∧
    ((strUpper flux = "H" ∨ strUpper flux = "L" ∨ strUpper flux = "LE") →
      ∃ msg, ecflux df w none flux freq rho cp Lv u v =
          .error (.missingArgument msg) ∧
        ecflux df w none flux freq rho cp Lv u v =
          ecflux df2 w none flux freq rho cp Lv u v) := by
  constructor
  · intro h1 h2 h3 h4 scalar
    constructor
    · unfold ecflux
      rw [if_neg h1, if_neg (by tauto), if_neg h4]
    · unfold ecflux
      rw [if_neg h1, if_neg (by tauto), if_neg h4, if_neg h1, if_neg (by tauto),
        if_neg h4]
  · rintro (h | h | h)
    · refine ⟨"scalar [temperature] must be specified for sensible heat flux",
        ?_, ?_⟩
      · unfold ecflux
        rw [if_pos h]
      · unfold ecflux
        rw [if_pos h, if_pos h]
    · refine ⟨"scalar [specific humidity] must be specified for latent heat flux",
        ?_, ?_⟩
      · unfold ecflux
        rw [if_neg (by rw [h]; decide), if_pos (Or.inl h)]
      · unfold ecflux
        rw [if_neg (by rw [h]; decide), if_pos (Or.inl h),
          if_neg (by rw [h]; decide), if_pos (Or.inl h)]
    · refine ⟨"scalar [specific humidity] must be specified for latent heat flux",
        ?_, ?_⟩
      · unfold ecflux
        rw [if_neg (by rw [h]; decide), if_pos (Or.inr h)]
      · unfold ecflux
        rw [if_neg (by rw [h]; decide), if_pos (Or.inr h),
          if_neg (by rw [h]; decide), if_pos (Or.inr h)]

/-- Witness for C2: the selector X is rejected whole, and the lower-case
selector h with no scalar is rejected for the missing argument. -/
theorem claim_C2_witness :
    ecflux demoFrame "w" none "X" 600 1 1 1 "u" "v" =
      .error (.unsupportedFluxType "X") ∧
    ∃ msg, ecflux demoFrame "w" none "h" 600 1 1 1 "u" "v" =
      .error (.missingArgument msg) := by
  constructor
  · have h := ((claim_C2 demoFrame gapFrame "w" "X" 600 1 1 1 "u" "v").1
      (by decide) (by decide) (by decide) (by decide) none).1
    simpa using h
  · obtain ⟨msg, h1, _⟩ := (claim_C2 demoFrame gapFrame "w" "h" 600 1 1 1 "u" "v").2
      (Or.inl (by decide))
    exact ⟨msg, h1⟩

/-- Claim C9: the legacy sensible heat wrapper computes the same numbers as
the ecflux H route; the two differ only in the series name. -/
theorem claim_C9 (df : Frame) (freq : ℕ) (var_col wind_col : String)
    (rho cp Lv : ℚ) (u v : String) :
    ∃ s, ecflux df wind_col (some var_col) "H" freq rho cp Lv u v = .ok s ∧
      s.name = "H_W_per_m2" ∧
      (sensible_heat_flux df freq var_col wind_col rho cp).name =
        var_col ++ "_flux" ∧
      s.entries =
        (sensible_heat_flux df freq var_col wind_col rho cp).entries.map
          (fun p => (p.1, p.2.map (fun q => (q : ℝ)))) := by
  refine ⟨seriesQtoR
    (sensible_heat_flux_internal df freq var_col wind_col rho cp),
    ?_, rfl, rfl, rfl⟩
  unfold ecflux
  rw [if_pos (by decide : strUpper "H" = "H")]

/-- Witness for C9: the equivalence at the concrete four-row table. -/
theorem claim_C9_witness :
    ∃ s, ecflux demoFrame "w" (some "T") "H" 600 1 1 1 "u" "v" = .ok s ∧
      s.name = "H_W_per_m2" ∧
      (sensible_heat_flux demoFrame 600 "T" "w" 1 1).name = "T" ++ "_flux" ∧
      s.entries = (sensible_heat_flux demoFrame 600 "T" "w" 1 1).entries.map
        (fun p => (p.1, p.2.map (fun q => (q : ℝ)))) :=
  claim_C9 demoFrame 600 "T" "w" 1 1 1 "u" "v"

end Ecflux
